import Mathlib

/-!
Verification of the pink-core process-lifecycle framework (Go).

The development shallowly embeds the Go sources:
  * `env.go` — path derivation (`BaseDir`, `PinkToolsDir`, `ServiceDir`,
    `DataDir`, `portFilePath`), the port registry (`readPort`, the port-file
    write in `startIPCListener`), the IPC server connection handler
    (`handleIPCConnection`) and the IPC clients (`SendStop`, `SendCommand`,
    `IsRunning`);
  * `core.go` — `Config`-driven CLI dispatch (`handleCLI`) and the top-level
    control flow of `Run`.

Effectful Go code is embedded as pure functions over explicit environments:
the file system and the network are records of functions, a connection
handler produces a list of observable events, and `os.Args`/`main != nil`
become explicit parameters.  Go standard-library collaborators
(`strings.TrimSpace`, `strconv.Itoa`, `strconv.Atoi`, `filepath.Join`,
`filepath.Dir`) are modelled directly below, with the slash as the path
separator.
-/

namespace PinkCore

/-- Whitespace predicate of Go `unicode.IsSpace` restricted to the Latin-1
range that `strings.TrimSpace` strips: tab, newline, vertical tab, form
feed, carriage return, space, NEL and NBSP. -/
def isSpaceChar (c : Char) : Bool :=
  c.toNat = 9 || c.toNat = 10 || c.toNat = 11 || c.toNat = 12 ||
  c.toNat = 13 || c.toNat = 32 || c.toNat = 133 || c.toNat = 160

/-- Drop whitespace from both ends of a character list. -/
def trimList (l : List Char) : List Char :=
  ((l.dropWhile isSpaceChar).reverse.dropWhile isSpaceChar).reverse

/-- Model of Go `strings.TrimSpace`. -/
def trimSpace (s : String) : String :=
  ⟨trimList s.data⟩

/-- The ASCII digit character for a digit value below ten. -/
def digitChar (d : Nat) : Char :=
  Char.ofNat (48 + d)

/-- The value of an ASCII digit character, `none` on a non-digit. -/
def digitVal (c : Char) : Option Nat :=
  if 48 ≤ c.toNat ∧ c.toNat ≤ 57 then some (c.toNat - 48) else none

/-- Accumulating decimal parse of a digit string, most significant first. -/
def goAtoiNatCore : List Char → Nat → Option Nat
  | [], a => some a
  | c :: cs, a =>
    match digitVal c with
    | some d => goAtoiNatCore cs (a * 10 + d)
    | none => none

/-- Parse a non-empty all-digit string as a natural number. -/
def goAtoiNat (l : List Char) : Option Nat :=
  match l with
  | [] => none
  | _ :: _ => goAtoiNatCore l 0

/-- Model of Go `strconv.Atoi` on a character list: an optional sign, a
non-empty digit string, and the 64-bit `int` range check. -/
def goAtoiList (l : List Char) : Option Int :=
  match l with
  | [] => none
  | c :: cs =>
    if c = '-' then
      match goAtoiNat cs with
      | some n => if n ≤ 2 ^ 63 then some (-(n : Int)) else none
      | none => none
    else if c = '+' then
      match goAtoiNat cs with
      | some n => if n < 2 ^ 63 then some ((n : Int)) else none
      | none => none
    else
      match goAtoiNat l with
      | some n => if n < 2 ^ 63 then some ((n : Int)) else none
      | none => none

/-- Model of Go `strconv.Atoi`. -/
def goAtoi (s : String) : Option Int :=
  goAtoiList s.data

/-- Fuel-indexed digit emitter: prepends the decimal digits of `n`, most
significant first, to `acc`.  Any fuel at least `n` is exact. -/
def itoaCore : Nat → Nat → List Char → List Char
  | 0, _, acc => acc
  | fuel + 1, n, acc =>
    if n = 0 then acc
    else itoaCore fuel (n / 10) (digitChar (n % 10) :: acc)

/-- The decimal digit string of a natural number (`"0"` for zero). -/
def itoaList (n : Nat) : List Char :=
  if n = 0 then ['0'] else itoaCore n n []

/-- Model of Go `strconv.Itoa` on the non-negative arguments the listener
persists. -/
def goItoa (n : Nat) : String :=
  ⟨itoaList n⟩

/-- A digit character produced by `digitChar` parses back to its value. -/
theorem digitVal_digitChar (d : Nat) (h : d < 10) :
    digitVal (digitChar d) = some d := by
  interval_cases d <;> rfl

/-- A digit character is not whitespace. -/
theorem isSpaceChar_digitChar (d : Nat) (h : d < 10) :
    isSpaceChar (digitChar d) = false := by
  interval_cases d <;> rfl

/-- Characters emitted by `itoaCore` on top of an all-digit accumulator are
digit characters of digits below ten. -/
theorem itoaCore_chars (fuel : Nat) :
    ∀ n acc, (∀ c ∈ acc, ∃ d, d < 10 ∧ c = digitChar d) →
      ∀ c ∈ itoaCore fuel n acc, ∃ d, d < 10 ∧ c = digitChar d := by
  induction fuel with
  | zero => intro n acc hacc c hc; exact hacc c hc
  | succ fuel ih =>
    intro n acc hacc c hc
    by_cases hn : n = 0
    · simp [itoaCore, hn] at hc
      exact hacc c hc
    · simp only [itoaCore, if_neg hn] at hc
      refine ih (n / 10) (digitChar (n % 10) :: acc) ?_ c hc
      intro c2 hc2
      rw [List.mem_cons] at hc2
      rcases hc2 with hc2 | hc2
      · exact ⟨n % 10, Nat.mod_lt _ (by omega), hc2⟩
      · exact hacc c2 hc2

/-- `itoaCore` preserves non-emptiness of its accumulator and produces a
non-empty list whenever it has positive fuel and a positive argument. -/
theorem itoaCore_ne_nil (fuel : Nat) :
    ∀ n acc, (acc ≠ [] ∨ (0 < n ∧ n ≤ fuel)) → itoaCore fuel n acc ≠ [] := by
  induction fuel with
  | zero =>
    intro n acc h
    rcases h with h | h
    · simpa [itoaCore] using h
    · omega
  | succ fuel ih =>
    intro n acc h
    by_cases hn : n = 0
    · rcases h with h | h
      · simpa [itoaCore, hn] using h
      · omega
    · simp only [itoaCore, if_neg hn]
      exact ih (n / 10) (digitChar (n % 10) :: acc) (Or.inl (by simp))

/-- Core round-trip: parsing the digits emitted by `itoaCore` continues the
parse on the accumulator with the emitted value folded in. -/
theorem goAtoiNatCore_itoaCore (fuel : Nat) :
    ∀ n acc a, n ≤ fuel →
      ∃ k, goAtoiNatCore (itoaCore fuel n acc) a =
        goAtoiNatCore acc (a * 10 ^ k + n) := by
  induction fuel with
  | zero =>
    intro n acc a hn
    refine ⟨0, ?_⟩
    have : n = 0 := by omega
    simp [itoaCore, this]
  | succ fuel ih =>
    intro n acc a hn
    by_cases h0 : n = 0
    · refine ⟨0, ?_⟩
      simp [itoaCore, h0]
    · simp only [itoaCore, if_neg h0]
      have hdiv : n / 10 ≤ fuel := by
        have hlt : n / 10 < n := Nat.div_lt_self (Nat.pos_of_ne_zero h0) (by decide)
        omega
      obtain ⟨k, hk⟩ := ih (n / 10) (digitChar (n % 10) :: acc) a hdiv
      refine ⟨k + 1, ?_⟩
      rw [hk]
      have hd : digitVal (digitChar (n % 10)) = some (n % 10) :=
        digitVal_digitChar _ (Nat.mod_lt _ (by omega))
      simp only [goAtoiNatCore, hd]
      congr 1
      have hdm : n / 10 * 10 + n % 10 = n := Nat.div_add_mod' n 10
      calc (a * 10 ^ k + n / 10) * 10 + n % 10
          = a * (10 ^ k * 10) + (n / 10 * 10 + n % 10) := by ring
        _ = a * 10 ^ (k + 1) + n := by rw [hdm, pow_succ]

/-- `dropWhile` is the identity on a list none of whose elements satisfy the
predicate. -/
theorem dropWhile_of_none (p : Char → Bool) :
    ∀ l : List Char, (∀ c ∈ l, p c = false) → l.dropWhile p = l := by
  intro l h
  cases l with
  | nil => rfl
  | cons c cs => simp [List.dropWhile_cons, h c (by simp)]

/-- Trimming is the identity on a whitespace-free character list. -/
theorem trimList_of_no_space (l : List Char)
    (h : ∀ c ∈ l, isSpaceChar c = false) : trimList l = l := by
  unfold trimList
  rw [dropWhile_of_none _ l h]
  rw [dropWhile_of_none _ l.reverse (fun c hc => h c (List.mem_reverse.mp hc))]
  exact List.reverse_reverse l

/-- Every character of `itoaList` is a decimal digit character. -/
theorem itoaList_chars (n : Nat) :
    ∀ c ∈ itoaList n, ∃ d, d < 10 ∧ c = digitChar d := by
  intro c hc
  by_cases h : n = 0
  · simp [itoaList, h] at hc
    exact ⟨0, by omega, by rw [hc]; rfl⟩
  · simp only [itoaList, if_neg h] at hc
    exact itoaCore_chars n n [] (by simp) c hc

/-- Trimming does not change the persisted decimal port text. -/
theorem trimSpace_goItoa (n : Nat) : trimSpace (goItoa n) = goItoa n := by
  show (⟨trimList (itoaList n)⟩ : String) = ⟨itoaList n⟩
  congr 1
  refine trimList_of_no_space _ ?_
  intro c hc
  obtain ⟨d, hd, rfl⟩ := itoaList_chars n c hc
  exact isSpaceChar_digitChar d hd

/-- The unsigned parse inverts the digit emitter. -/
theorem goAtoiNat_itoaList (n : Nat) : goAtoiNat (itoaList n) = some n := by
  by_cases h : n = 0
  · subst h; rfl
  · have hpos : 0 < n := Nat.pos_of_ne_zero h
    have hne : itoaCore n n [] ≠ [] :=
      itoaCore_ne_nil n n [] (Or.inr ⟨hpos, le_rfl⟩)
    obtain ⟨k, hk⟩ := goAtoiNatCore_itoaCore n n [] 0 le_rfl
    have hval : goAtoiNatCore (itoaCore n n []) 0 = some n := by
      rw [hk]; simp [goAtoiNatCore]
    rw [itoaList, if_neg h]
    cases hl : itoaCore n n [] with
    | nil => exact absurd hl hne
    | cons c cs =>
      show goAtoiNatCore (c :: cs) 0 = some n
      rw [← hl]; exact hval

/-- A digit character is neither a minus nor a plus sign. -/
theorem digitChar_ne_sign (d : Nat) (h : d < 10) :
    digitChar d ≠ '-' ∧ digitChar d ≠ '+' := by
  interval_cases d <;> exact ⟨by decide, by decide⟩

/-- The signed parse of Go `strconv.Atoi` inverts `strconv.Itoa` on
natural numbers within the 64-bit range. -/
theorem goAtoi_goItoa (n : Nat) (h : n < 2 ^ 63) :
    goAtoi (goItoa n) = some (n : Int) := by
  show goAtoiList (itoaList n) = some (n : Int)
  cases hl : itoaList n with
  | nil =>
    exfalso
    by_cases h0 : n = 0
    · rw [itoaList, if_pos h0] at hl; exact List.cons_ne_nil _ _ hl
    · rw [itoaList, if_neg h0] at hl
      exact itoaCore_ne_nil n n []
        (Or.inr ⟨Nat.pos_of_ne_zero h0, le_rfl⟩) hl
  | cons c cs =>
    have hc : c ∈ itoaList n := by rw [hl]; exact List.mem_cons_self c cs
    obtain ⟨d, hd, rfl⟩ := itoaList_chars n c hc
    obtain ⟨hdash, hplus⟩ := digitChar_ne_sign d hd
    simp only [goAtoiList, if_neg hdash, if_neg hplus]
    rw [← hl, goAtoiNat_itoaList]
    have hb : n < 9223372036854775808 := by
      have : (2 : Nat) ^ 63 = 9223372036854775808 := by norm_num
      omega
    simp [hb]

/-- Model of Go `filepath.Join` on two components, with the slash
separator. -/
def joinPath (a b : String) : String :=
  a ++ "/" ++ b

/-- Model of Go `filepath.Dir`: everything before the final path element
(`"."` when there is no separator, `"/"` when only the root remains). -/
def dirname (p : String) : String :=
  match p.data.reverse.dropWhile (fun c => c != '/') with
  | [] => "."
  | [_] => "/"
  | _ :: rest => ⟨rest.reverse⟩

/-- File-system state visible to path derivation: the home directory
reported by `os.UserHomeDir` and the set of directories that exist. -/
structure FSWorld where
  home : String
  dirs : List String
  deriving DecidableEq

/-- Model of `os.MkdirAll` on the directory set: creating an existing
directory is a no-op. -/
def mkdirAll (dir : String) (dirs : List String) : List String :=
  if dir ∈ dirs then dirs else dir :: dirs

/-- `BaseDir` of env.go: the parent of the user's home directory. -/
def BaseDir (w : FSWorld) : String :=
  dirname w.home

/-- `PinkToolsDir` of env.go. -/
def PinkToolsDir (w : FSWorld) : String :=
  joinPath (BaseDir w) "pink-tools"

/-- `ServiceDir` of env.go: derives the per-service directory and creates
it with `os.MkdirAll` (the world component records that effect). -/
def ServiceDir (w : FSWorld) (name : String) : String × FSWorld :=
  let dir := joinPath (PinkToolsDir w) name
  (dir, { w with dirs := mkdirAll dir w.dirs })

/-- `DataDir` of env.go, an alias for `ServiceDir`. -/
def DataDir (w : FSWorld) (name : String) : String × FSWorld :=
  ServiceDir w name

/-- `portFilePath` of env.go: the port file inside the service data
directory, threading the directory-creation effect of `DataDir`. -/
def portFilePath (w : FSWorld) (name : String) : String × FSWorld :=
  let r := DataDir w name
  (joinPath r.1 (name ++ ".port"), r.2)

/-- The path value computed by `portFilePath`, as a pure function of the
home directory and the service name. -/
def portPath (home name : String) : String :=
  joinPath (joinPath (joinPath (dirname home) "pink-tools") name)
    (name ++ ".port")

/-- The path component of `portFilePath` is exactly `portPath`. -/
theorem portFilePath_fst (w : FSWorld) (name : String) :
    (portFilePath w name).1 = portPath w.home name := rfl

/-- External world seen by the IPC clients of env.go: the file system
(`os.ReadFile`, keyed by path) and the loopback network.  `connect port`
is `none` when `net.Dial` fails; otherwise it yields the peer as a
function from the bytes written to the pair of the bytes returned by
`bufio` `ReadString` and whether the newline delimiter was found (`false`
models a read error with partial data). -/
structure NetEnv where
  readFile : String → Option String
  connect : Int → Option (String → String × Bool)

/-- `readPort` of env.go: read the port file, trim, parse with
`strconv.Atoi`.  Any read or parse failure is an error result. -/
def readPort (env : NetEnv) (home name : String) : Except Unit Int :=
  match env.readFile (portPath home name) with
  | none => .error ()
  | some data =>
    match goAtoi (trimSpace data) with
    | none => .error ()
    | some v => .ok v

/-- Failure cases of the IPC clients, in the order they can arise in
`SendStop`/`SendCommand`. -/
inductive IPCErr where
  | notRunning
  | connectFailed
  | readFailed
  | unexpectedResponse (raw : String)
  deriving DecidableEq

/-- `SendStop` of env.go: resolve the port, dial, write `STOP`, read one
line, and demand the trimmed response `OK`. -/
def SendStop (env : NetEnv) (home name : String) : Except IPCErr Unit :=
  match readPort env home name with
  | .error _ => .error .notRunning
  | .ok port =>
    match env.connect port with
    | none => .error .connectFailed
    | some peer =>
      let r := peer "STOP\n"
      if r.2 then
        if trimSpace r.1 = "OK" then .ok ()
        else .error (.unexpectedResponse r.1)
      else .error .readFailed

/-- `SendCommand` of env.go: resolve the port, dial, write the command,
read one line, and return it trimmed. -/
def SendCommand (env : NetEnv) (home name cmd : String) :
    Except IPCErr String :=
  match readPort env home name with
  | .error _ => .error .notRunning
  | .ok port =>
    match env.connect port with
    | none => .error .connectFailed
    | some peer =>
      let r := peer (cmd ++ "\n")
      if r.2 then .ok (trimSpace r.1) else .error .readFailed

/-- `IsRunning` of env.go: resolve the port, dial, write `PING`, read one
line ignoring the read error, and compare the trimmed data to `PONG`.
Every failure path yields `false`; the return type `Bool` reflects that
the Go function has no error result. -/
def IsRunning (env : NetEnv) (home name : String) : Bool :=
  match readPort env home name with
  | .error _ => false
  | .ok port =>
    match env.connect port with
    | none => false
    | some peer => trimSpace (peer "PING\n").1 == "PONG"

/-- The port-file write of `startIPCListener` (env.go line 84): the file at
`portFilePath name` now holds `strconv.Itoa port`. -/
def startIPCListenerPersist (env : NetEnv) (home name : String)
    (port : Nat) : NetEnv :=
  { env with
    readFile := fun path =>
      if path = portPath home name then some (goItoa port)
      else env.readFile path }

/-- Observable actions of one server-side connection handler, in program
order: socket writes, the context-cancel call, and the deferred close. -/
inductive Ev where
  | write (s : String)
  | cancel
  | close
  deriving DecidableEq

/-- `handleIPCConnection` of env.go as a trace of observable events.
`input` is the result of `ReadString`: `none` when the read fails (no
newline before the connection closed), `some line` the full line
otherwise. -/
def handleIPCConnection (input : Option String)
    (handler : Option (String → String)) : List Ev :=
  match input with
  | none => [.close]
  | some line =>
    let cmd := trimSpace line
    if cmd = "STOP" then [.write "OK\n", .cancel, .close]
    else if cmd = "PING" then [.write "PONG\n", .close]
    else
      match handler with
      | some f => [.write (f cmd ++ "\n"), .close]
      | none => [.write "UNKNOWN\n", .close]

/-- Outcome of `handleCLI` of core.go.  The effectful branches (printing,
the health probe, invoking a registered command's `Run` function) are
abstracted to which branch executed; `runCommand` is the branch that
invokes the caller-registered command. -/
inductive CLIAction where
  | printVersion
  | printUsage
  | healthCheck
  | runCommand
  | notHandled
  deriving DecidableEq

/-- `handleCLI` of core.go: built-in flags first, then the
`cfg.Commands` lookup (modelled by the list of registered command names);
`notHandled` is the `return false` fall-through. -/
def handleCLI (commands : List String) (arg : String) : CLIAction :=
  if arg = "--version" ∨ arg = "-V" then .printVersion
  else if arg = "--help" ∨ arg = "-h" ∨ arg = "help" then .printUsage
  else if arg = "--health" then .healthCheck
  else if commands.contains arg then .runCommand
  else .notHandled

/-- The built-in flag names recognised by `handleCLI`. -/
def builtinFlags : List String :=
  ["--version", "-V", "--help", "-h", "help", "--health"]

/-- How far the control flow of `Run` (core.go) proceeds. -/
inductive RunOutcome where
  | cliHandled (a : CLIAction)
  | cliOnlyUsage
  | cliOnlyNoop
  | singletonConflict
  | daemonStarted
  deriving DecidableEq

/-- Control flow of `Run` (core.go): CLI dispatch when arguments are
present, the CLI-only short circuit when no task function is supplied,
then the singleton check via `IsRunning`, and otherwise daemon startup.
`args` is `os.Args` without the program name; `hasMain` is
`main != nil`. -/
def RunModel (env : NetEnv) (home name : String) (commands : List String)
    (args : List String) (hasMain : Bool) : RunOutcome :=
  let cli : Option CLIAction :=
    match args with
    | [] => none
    | arg :: _ =>
      let a := handleCLI commands arg
      if a = .notHandled then none else some a
  match cli with
  | some a => .cliHandled a
  | none =>
    if hasMain = false then
      if args = [] then .cliOnlyUsage else .cliOnlyNoop
    else if IsRunning env home name then .singletonConflict
    else .daemonStarted

/-- A client-side network operation together with the timeout configured
for it in the source. -/
structure NetOp where
  kind : String
  timeoutSeconds : Option Nat
  deriving DecidableEq

/-- Network operations of `SendCommand` (env.go lines 170 and 178-179):
`net.Dial` with no timeout variant and a `ReadString` with no prior
`SetReadDeadline`, so neither operation carries a deadline. -/
def SendCommandNetOps : List NetOp :=
  [⟨"dial", none⟩, ⟨"read", none⟩]

/-- Network operations of `SendStop` (env.go lines 142 and 150-151):
plain `net.Dial` and an undeadlined `ReadString`. -/
def SendStopNetOps : List NetOp :=
  [⟨"dial", none⟩, ⟨"read", none⟩]

/-- Network operations of `IsRunning` (env.go lines 209 and 217-218):
plain `net.Dial` and an undeadlined `ReadString`. -/
def IsRunningNetOps : List NetOp :=
  [⟨"dial", none⟩, ⟨"read", none⟩]

/-- All client-side network operations of env.go. -/
def clientNetOps : List NetOp :=
  SendCommandNetOps ++ SendStopNetOps ++ IsRunningNetOps

/-- Result kinds of the IPC clients, used to compare `SendStop` with the
spec's wrapper around `SendCommand`. -/
inductive ResKind where
  | okK
  | notRunningK
  | connectFailedK
  | readFailedK
  | unexpectedK
  deriving DecidableEq

/-- The kind of an IPC client failure. -/
def errKind : IPCErr → ResKind
  | .notRunning => .notRunningK
  | .connectFailed => .connectFailedK
  | .readFailed => .readFailedK
  | .unexpectedResponse _ => .unexpectedK

/-- The kind of a `SendStop` result. -/
def stopResKind : Except IPCErr Unit → ResKind
  | .ok _ => .okK
  | .error e => errKind e

/-- Modelled from the spec: the kind of result `stop(name)` must produce
given the outcome of `sendCommand(name, "STOP")` — success exactly on the
literal response `OK`, the unexpected-response failure on any other
response, and the underlying failure otherwise. -/
def specStopKind (r : Except IPCErr String) : ResKind :=
  match r with
  | .ok s => if s = "OK" then .okK else .unexpectedK
  | .error e => errKind e

/-- Modelled from the spec: trimming only trailing whitespace, as the
per-connection handling is worded. -/
def trimTrailing (s : String) : String :=
  ⟨(s.data.reverse.dropWhile isSpaceChar).reverse⟩

/-- C1: for every connection whose first line trims to `STOP`, the server
writes `OK` followed by a newline strictly before it invokes the
cancellation function; no occurrence of the cancel event precedes the
acknowledgment write in the handler's trace. -/
theorem stop_ack_before_cancel :
    ∀ (line : String) (h : Option (String → String)),
      trimSpace line = "STOP" →
      handleIPCConnection (some line) h =
        [Ev.write "OK\n", Ev.cancel, Ev.close] ∧
      ∀ j : Nat, (handleIPCConnection (some line) h)[j]? = some Ev.cancel →
        ∃ i : Nat, i < j ∧
          (handleIPCConnection (some line) h)[i]? = some (Ev.write "OK\n") := by
  intro line h hstop
  have htr : handleIPCConnection (some line) h =
      [Ev.write "OK\n", Ev.cancel, Ev.close] := by
    simp [handleIPCConnection, hstop]
  refine ⟨htr, ?_⟩
  rw [htr]
  intro j hj
  match j with
  | 0 => simp at hj
  | 1 => exact ⟨0, by omega, rfl⟩
  | 2 => simp at hj
  | n + 3 => simp at hj

/-- Witness for C1 at the concrete line `"STOP\n"` with no custom
handler. -/
theorem stop_ack_before_cancel_witness :
    handleIPCConnection (some "STOP\n") none =
      [Ev.write "OK\n", Ev.cancel, Ev.close] :=
  (stop_ack_before_cancel "STOP\n" none (by decide)).1

/-- C2: `IsRunning` returns `false` — and, having result type `Bool`,
surfaces no error — whenever the port file cannot be read or parsed, and
whenever the TCP connection to the recorded port fails, covering the
stale-port-file case. -/
theorem IsRunning_false_on_failure :
    ∀ (env : NetEnv) (home name : String),
      (∀ e, readPort env home name = .error e →
        IsRunning env home name = false) ∧
      (∀ p, readPort env home name = .ok p → env.connect p = none →
        IsRunning env home name = false) := by
  intro env home name
  constructor
  · intro e he
    simp [IsRunning, he]
  · intro p hp hc
    simp [IsRunning, hp, hc]

/-- Witness for C2: a stale environment whose port file reads `8080` while
every connection attempt fails. -/
theorem IsRunning_false_on_failure_witness :
    IsRunning ⟨fun _ => some "8080", fun _ => none⟩ "/home/u" "demo"
      = false :=
  (IsRunning_false_on_failure ⟨fun _ => some "8080", fun _ => none⟩
    "/home/u" "demo").2 8080 rfl rfl

/-- C3: none of the client-side network operations carries any timeout; in
particular they do not all carry the 5-second timeout the documentation
contracts. -/
theorem clientNetOps_undeadlined :
    clientNetOps.all (fun op => op.timeoutSeconds.isNone) = true ∧
    clientNetOps.all (fun op => op.timeoutSeconds == some 5) = false := by
  constructor <;> decide

/-- C4: the built-in flags dispatch to the built-in behaviour whatever
commands are registered, so a caller-registered command of the identical
name never has its `Run` function invoked. -/
theorem builtins_shadow_custom :
    ∀ (commands : List String),
      handleCLI commands "--version" = .printVersion ∧
      handleCLI commands "-V" = .printVersion ∧
      handleCLI commands "--help" = .printUsage ∧
      handleCLI commands "-h" = .printUsage ∧
      handleCLI commands "help" = .printUsage ∧
      handleCLI commands "--health" = .healthCheck ∧
      ∀ arg ∈ builtinFlags, handleCLI commands arg ≠ .runCommand := by
  intro commands
  refine ⟨rfl, rfl, rfl, rfl, rfl, rfl, ?_⟩
  intro arg h
  fin_cases h <;> simp [handleCLI]

/-- Witness for C4: a config registering a command named `--version` still
dispatches to the built-in version action. -/
theorem builtins_shadow_custom_witness :
    handleCLI ["--version"] "--version" = CLIAction.printVersion ∧
    handleCLI ["--version"] "--version" ≠ CLIAction.runCommand :=
  ⟨(builtins_shadow_custom ["--version"]).1,
   (builtins_shadow_custom ["--version"]).2.2.2.2.2.2 "--version"
     (by decide)⟩

/-- C5 counterexample: the handler dispatches on the line trimmed on both
ends, not only of trailing whitespace — on input `" PING\n"` the
trailing-trimmed command is `" PING"`, which matches neither `PING` nor
`STOP`, so the claim says the response is `UNKNOWN`, yet the code responds
`PONG`. -/
theorem handle_trailing_trim_counterexample :
    trimTrailing " PING\n" = " PING" ∧
    (" PING" : String) ≠ "PING" ∧ (" PING" : String) ≠ "STOP" ∧
    handleIPCConnection (some " PING\n") none =
      [Ev.write "PONG\n", Ev.close] ∧
    handleIPCConnection (some " PING\n") none ≠
      [Ev.write "UNKNOWN\n", Ev.close] := by
  refine ⟨?_, ?_, ?_, ?_, ?_⟩ <;> decide

/-- C5 (amended): the server reads one line, trims leading and trailing
whitespace, and dispatches: `PING` yields `PONG`, any command that is
neither `PING` nor `STOP` yields the handler's string when one is supplied
and `UNKNOWN` otherwise, and input with no line terminator yields no
response. -/
theorem handleIPC_dispatch :
    ∀ (line : String) (h : Option (String → String)) (f : String → String),
      handleIPCConnection none h = [Ev.close] ∧
      (trimSpace line = "PING" →
        handleIPCConnection (some line) h = [Ev.write "PONG\n", Ev.close]) ∧
      (trimSpace line ≠ "PING" → trimSpace line ≠ "STOP" →
        handleIPCConnection (some line) (some f) =
          [Ev.write (f (trimSpace line) ++ "\n"), Ev.close]) ∧
      (trimSpace line ≠ "PING" → trimSpace line ≠ "STOP" →
        handleIPCConnection (some line) none =
          [Ev.write "UNKNOWN\n", Ev.close]) := by
  intro line h f
  refine ⟨rfl, ?_, ?_, ?_⟩
  · intro hping
    simp [handleIPCConnection, hping]
  · intro hping hstop
    simp [handleIPCConnection, hping, hstop]
  · intro hping hstop
    simp [handleIPCConnection, hping, hstop]

/-- Witness for C5 at concrete inputs `" PING\n"` and `"frob\n"`. -/
theorem handleIPC_dispatch_witness :
    handleIPCConnection none none = [Ev.close] ∧
    handleIPCConnection (some " PING\n") none =
      [Ev.write "PONG\n", Ev.close] ∧
    handleIPCConnection (some "frob\n") none =
      [Ev.write "UNKNOWN\n", Ev.close] :=
  ⟨(handleIPC_dispatch " PING\n" none id).1,
   (handleIPC_dispatch " PING\n" none id).2.1 (by decide),
   (handleIPC_dispatch "frob\n" none id).2.2.2 (by decide) (by decide)⟩

/-- C6: the port persisted by `startIPCListener` round-trips — after the
listener writes `strconv.Itoa p` to the port file, `readPort` succeeds and
returns exactly `p`. -/
theorem portFile_roundtrip :
    ∀ (env : NetEnv) (home name : String) (p : Nat), p < 65536 →
      readPort (startIPCListenerPersist env home name p) home name =
        .ok (p : Int) := by
  intro env home name p hp
  have h63 : p < 2 ^ 63 := by
    have hpow : (2 : Nat) ^ 63 = 9223372036854775808 := by norm_num
    omega
  simp [readPort, startIPCListenerPersist, trimSpace_goItoa,
    goAtoi_goItoa p h63]

/-- Witness for C6 at port 8080. -/
theorem portFile_roundtrip_witness :
    readPort
      (startIPCListenerPersist ⟨fun _ => none, fun _ => none⟩
        "/home/u" "demo" 8080)
      "/home/u" "demo" = .ok 8080 :=
  portFile_roundtrip ⟨fun _ => none, fun _ => none⟩ "/home/u" "demo" 8080
    (by decide)

/-- C7: `SendStop` is the spec's wrapper over `SendCommand` with command
`STOP` — it succeeds exactly when that exchange returns `OK`, and
otherwise fails with the kind of failure the wrapper prescribes
(unexpected response on any other reply, and the same not-running,
connect-failure and read-failure cases). -/
theorem SendStop_refines_SendCommand :
    ∀ (env : NetEnv) (home name : String),
      (SendStop env home name = .ok () ↔
        SendCommand env home name "STOP" = .ok "OK") ∧
      stopResKind (SendStop env home name) =
        specStopKind (SendCommand env home name "STOP") := by
  intro env home name
  cases hr : readPort env home name with
  | error e =>
    simp [SendStop, SendCommand, hr, stopResKind, specStopKind, errKind]
  | ok port =>
    cases hc : env.connect port with
    | none =>
      simp [SendStop, SendCommand, hr, hc, stopResKind, specStopKind,
        errKind]
    | some peer =>
      by_cases hread : (peer "STOP\n").2 = true
      · by_cases hok : trimSpace (peer "STOP\n").1 = "OK"
        · simp [SendStop, SendCommand, hr, hc, hread, hok, stopResKind,
            specStopKind, errKind]
        · simp [SendStop, SendCommand, hr, hc, hread, hok, stopResKind,
            specStopKind, errKind]
      · simp [SendStop, SendCommand, hr, hc, hread, stopResKind,
          specStopKind, errKind]

/-- C8 counterexample: deriving the port-file path is not effect-free and
does not depend on the service name alone — evaluating it creates the
service directory (the world changes), and the path differs between two
environments with different home directories. -/
theorem portFilePath_effect_counterexample :
    (portFilePath ⟨"/home/alice", []⟩ "demo").2 ≠
      (⟨"/home/alice", []⟩ : FSWorld) ∧
    (portFilePath ⟨"/home/alice", []⟩ "demo").1 ≠
      (portFilePath ⟨"/Users/bob", []⟩ "demo").1 := by
  constructor <;> decide

/-- Creating a directory that the previous creation added is a no-op. -/
theorem mkdirAll_idem (d : String) (ds : List String) :
    mkdirAll d (mkdirAll d ds) = mkdirAll d ds := by
  by_cases h : d ∈ ds <;> simp [mkdirAll, h]

/-- C8 (amended): given a fixed home directory, port-file path derivation
is deterministic and depends only on the service name — two worlds with
the same home yield the same path, so writer and reader resolve the same
file — and its only side effect, creating the per-service data directory,
is idempotent: re-deriving the path from the resulting world returns the
same path and changes nothing further. -/
theorem portFilePath_deterministic :
    ∀ (w1 w2 : FSWorld) (name : String), w1.home = w2.home →
      (portFilePath w1 name).1 = (portFilePath w2 name).1 ∧
      portFilePath (portFilePath w1 name).2 name =
        ((portFilePath w1 name).1, (portFilePath w1 name).2) := by
  intro w1 w2 name hh
  constructor
  · rw [portFilePath_fst, portFilePath_fst, hh]
  · simp [portFilePath, DataDir, ServiceDir, PinkToolsDir, BaseDir,
      mkdirAll_idem]

/-- Witness for C8 in the world with home `/home/alice` and no
directories. -/
theorem portFilePath_deterministic_witness :
    (portFilePath ⟨"/home/alice", []⟩ "demo").1 =
      (portFilePath ⟨"/home/alice", []⟩ "demo").1 ∧
    portFilePath (portFilePath ⟨"/home/alice", []⟩ "demo").2 "demo" =
      ((portFilePath ⟨"/home/alice", []⟩ "demo").1,
       (portFilePath ⟨"/home/alice", []⟩ "demo").2) :=
  portFilePath_deterministic ⟨"/home/alice", []⟩ ⟨"/home/alice", []⟩
    "demo" rfl

/-- C9: when `Run` has a task function and the first CLI argument is
neither a built-in flag nor a registered command, `handleCLI` reports the
argument unhandled and `Run` proceeds to the singleton check — conflict
exit if an instance answers the ping, daemon startup otherwise — with no
error about the unrecognized argument. -/
theorem run_unknown_arg_proceeds :
    ∀ (env : NetEnv) (home name : String) (commands : List String)
      (arg : String) (rest : List String),
      arg ∉ builtinFlags → commands.contains arg = false →
      handleCLI commands arg = .notHandled ∧
      RunModel env home name commands (arg :: rest) true =
        (if IsRunning env home name then .singletonConflict
         else .daemonStarted) := by
  intro env home name commands arg rest hb hc
  simp only [builtinFlags, List.mem_cons, List.not_mem_nil, or_false,
    not_or] at hb
  obtain ⟨h1, h2, h3, h4, h5, h6⟩ := hb
  have hcli : handleCLI commands arg = .notHandled := by
    unfold handleCLI
    rw [if_neg (by tauto), if_neg (by tauto), if_neg h6,
      if_neg (by simpa [List.contains, List.elem_eq_mem] using hc)]
  refine ⟨hcli, ?_⟩
  simp only [RunModel, hcli]
  split <;> simp_all

/-- Witness for C9: the unregistered argument `frob` with an environment
in which nothing is running. -/
theorem run_unknown_arg_proceeds_witness :
    handleCLI ["stop"] "frob" = CLIAction.notHandled ∧
    RunModel ⟨fun _ => none, fun _ => none⟩ "/home/u" "demo" ["stop"]
        ["frob"] true =
      (if IsRunning ⟨fun _ => none, fun _ => none⟩ "/home/u" "demo"
       then RunOutcome.singletonConflict else RunOutcome.daemonStarted) :=
  run_unknown_arg_proceeds ⟨fun _ => none, fun _ => none⟩ "/home/u"
    "demo" ["stop"] "frob" [] (by decide) (by decide)

/-- C10: `readPort` returns any value whose file contents parse as a Go
`int` after trimming surrounding whitespace, with no range check on the
result. -/
theorem readPort_no_range_check :
    ∀ (env : NetEnv) (home name s : String) (v : Int),
      env.readFile (portPath home name) = some s →
      goAtoi (trimSpace s) = some v →
      readPort env home name = .ok v := by
  intro env home name s v hs hv
  simp [readPort, hs, hv]

/-- Witness for C10: contents `-1` and ` 70000` followed by a newline are
both accepted, though neither is a valid TCP port. -/
theorem readPort_no_range_check_witness :
    readPort ⟨fun _ => some "-1", fun _ => none⟩ "/home/u" "demo" =
      .ok (-1) ∧
    readPort ⟨fun _ => some " 70000\n", fun _ => none⟩ "/home/u" "demo" =
      .ok 70000 :=
  ⟨readPort_no_range_check ⟨fun _ => some "-1", fun _ => none⟩
     "/home/u" "demo" "-1" (-1) rfl (by decide),
   readPort_no_range_check ⟨fun _ => some " 70000\n", fun _ => none⟩
     "/home/u" "demo" " 70000\n" 70000 rfl (by decide)⟩

end PinkCore
